import Mathlib

/-!
Verification of the persisted-state synchronization layer of the CodeDiff
application (src/src/App.jsx): the localStorage read/write helpers, the
`useLocalStorageState` persistence discipline, the Monaco mount/unmount
subscription lifecycle, the toast notification timer, the clipboard
adapter, and the reset handler.

The embedding is shallow: JavaScript values that can flow through
`JSON.stringify` / `JSON.parse` and the `Number` coercion are modelled by
`JsVal` (restricted to the null/boolean/integer/string fragment that this
application actually stores, plus `NaN`, which `Number` can produce);
`localStorage` is a list of key/raw-string entries together with failure
flags that make `getItem`/`setItem` raise, mirroring quota and
security errors; the React component is a record `AppState` whose event
handlers are pure state-transition functions.  React's bail-out rule
(a state setter whose new value equals the current one re-renders
nothing, so the persistence `useEffect` does not re-run) is modelled by
the dirty-check in each setter, which appends to `persistLog` exactly
when the stored value changes.
-/

/-- JavaScript values of the fragment this application stores and coerces:
`null`, booleans, integers, strings, and `NaN` (producible by `Number` on
a non-numeric string, and serialized by `JSON.stringify` as `null`).
Fractional numbers never arise in this program and are not modelled. -/
inductive JsVal where
  | nan : JsVal
  | null : JsVal
  | num (n : Int) : JsVal
  | str (s : String) : JsVal
  | bool (b : Bool) : JsVal
deriving DecidableEq

/-- Decimal digit to its character, for printing numbers. -/
def digitChar (d : Nat) : Char := Char.ofNat (48 + d)

/-- Character to decimal digit, for parsing numbers. -/
def charDigit (c : Char) : Option Nat :=
  if 48 ≤ c.toNat ∧ c.toNat ≤ 57 then some (c.toNat - 48) else none

/-- Fuel-indexed decimal printer for naturals, most significant digit
first.  The fuel is always at least the digit count when called through
`printNat`. -/
def printNatAux : Nat → Nat → List Char
  | 0, _ => []
  | f + 1, n =>
    if n < 10 then [digitChar n]
    else printNatAux f (n / 10) ++ [digitChar (n % 10)]

/-- Decimal printer for naturals. -/
def printNat (n : Nat) : List Char := printNatAux (n + 1) n

/-- Decimal printer for integers, matching `JSON.stringify` on integral
numbers: a leading minus sign for negatives. -/
def printInt (n : Int) : List Char :=
  if n < 0 then '-' :: printNat n.natAbs else printNat n.toNat

/-- Accumulator-based decimal parser for a run of digit characters. -/
def parseNatAux (acc : Nat) : List Char → Option Nat
  | [] => some acc
  | c :: cs =>
    match charDigit c with
    | some d => parseNatAux (acc * 10 + d) cs
    | none => none

/-- Parses a nonempty all-digit character list as a natural number. -/
def parseNatChars (cs : List Char) : Option Nat :=
  if cs = [] then none else parseNatAux 0 cs

/-- One-character JSON string escaping, as performed by `JSON.stringify`
on the characters this application's texts contain. -/
def esc1 (c : Char) : List Char :=
  if c = '"' then ['\\', '"']
  else if c = '\\' then ['\\', '\\']
  else if c = '\n' then ['\\', 'n']
  else if c = '\t' then ['\\', 't']
  else if c = '\r' then ['\\', 'r']
  else [c]

/-- JSON string-body escaping. -/
def escChars : List Char → List Char
  | [] => []
  | c :: cs => esc1 c ++ escChars cs

/-- Decoding of the character after a backslash in a JSON string body. -/
def decodeEsc (c : Char) : Option Char :=
  if c = '"' then some '"'
  else if c = '\\' then some '\\'
  else if c = 'n' then some '\n'
  else if c = 't' then some '\t'
  else if c = 'r' then some '\r'
  else none

/-- JSON string-body unescaping; fails on a dangling backslash, an
unknown escape, or a bare quote (which would end the string early). -/
def unescChars : List Char → Option (List Char)
  | [] => some []
  | c :: cs =>
    if c = '\\' then
      match cs with
      | [] => none
      | d :: cs2 =>
        match decodeEsc d with
        | some e => (unescChars cs2).map (fun l => e :: l)
        | none => none
    else if c = '"' then none
    else (unescChars cs).map (fun l => c :: l)

/-- Serialization, as `JSON.stringify` behaves on the stored fragment.
Note `JSON.stringify(NaN)` is the text `null`. -/
def jsonStringify : JsVal → String
  | JsVal.nan => "null"
  | JsVal.null => "null"
  | JsVal.num n => String.mk (printInt n)
  | JsVal.str s => String.mk ('"' :: (escChars s.data ++ ['"']))
  | JsVal.bool true => "true"
  | JsVal.bool false => "false"

/-- Parsing of a quoted JSON string once the opening quote is consumed:
the last character must be the closing quote and the body must unescape. -/
def parseQuoted (rest : List Char) : Option JsVal :=
  match rest.getLast? with
  | none => none
  | some c =>
    if c = '"' then (unescChars rest.dropLast).map (fun l => JsVal.str (String.mk l))
    else none

def trueChars : List Char := ['t', 'r', 'u', 'e']
def falseChars : List Char := ['f', 'a', 'l', 's', 'e']
def nullChars : List Char := ['n', 'u', 'l', 'l']

/-- Parsing of a non-keyword atom: a quoted string or an optionally
negated digit run; anything else fails (as `JSON.parse` throws,
modelled by `none`). -/
def parseAtom : List Char → Option JsVal
  | [] => none
  | c :: rest =>
    if c = '"' then parseQuoted rest
    else if c = '-' then (parseNatChars rest).map (fun m => JsVal.num (-(Int.ofNat m)))
    else (parseNatChars (c :: rest)).map (fun m => JsVal.num (Int.ofNat m))

/-- Deserialization over the stored fragment, as `JSON.parse` behaves on
the texts `jsonStringify` emits.  `JSON.parse` never yields `NaN`. -/
def parseJsonChars (cs : List Char) : Option JsVal :=
  if cs = trueChars then some (JsVal.bool true)
  else if cs = falseChars then some (JsVal.bool false)
  else if cs = nullChars then some JsVal.null
  else parseAtom cs

/-- Deserialization of a raw stored string. -/
def jsonParse (raw : String) : Option JsVal := parseJsonChars raw.data

/-- The browser-local durable store: its entries, plus the two failure
modes the source's try/catch blocks absorb — `disabled` makes every
access raise (security error / storage unavailable, covering also the
`typeof window === 'undefined'` guard), `full` makes writes raise
(quota exceeded). -/
structure Store where
  entries : List (String × String)
  disabled : Bool
  full : Bool
deriving DecidableEq

/-- Raw lookup among the entries, first match wins. -/
def getEntry : List (String × String) → String → Option String
  | [], _ => none
  | (k1, v) :: rest, k => if k1 = k then some v else getEntry rest k

/-- `localStorage.getItem`: raises (models `Except.error`) when the store
is disabled. -/
def getItemE (st : Store) (k : String) : Except String (Option String) :=
  if st.disabled then Except.error "SecurityError" else Except.ok (getEntry st.entries k)

/-- `localStorage.setItem`: raises when the store is disabled or full;
otherwise replaces any previous entry for the key. -/
def setItemE (st : Store) (k v : String) : Except String Store :=
  if st.disabled ∨ st.full then Except.error "QuotaExceededError"
  else Except.ok { st with entries := (k, v) :: st.entries.filter (fun e => e.1 ≠ k) }

/-- The source's `readStorage`: returns the fallback when the store
access raises, the key is absent, or `JSON.parse` raises.  Totality of
this function is the "never throws" guarantee. -/
def readStorage (st : Store) (k : String) (fallback : JsVal) : JsVal :=
  match getItemE st k with
  | Except.error _ => fallback
  | Except.ok none => fallback
  | Except.ok (some raw) =>
    match jsonParse raw with
    | some v => v
    | none => fallback

/-- The source's `writeStorage`: serializes and stores; a raising write
is absorbed, leaving the store unchanged.  Totality of this function is
the "no error surfaces to the caller" guarantee. -/
def writeStorage (st : Store) (k : String) (v : JsVal) : Store :=
  match setItemE st k (jsonStringify v) with
  | Except.error _ => st
  | Except.ok st2 => st2

/-- The `Number` coercion on a string: the empty string is `0`, an
optionally negated digit run is its value, anything else is `NaN`.
(Whitespace trimming and non-decimal forms of `Number` are omitted:
no text this application feeds it contains them.) -/
def jsStringToNumber (s : String) : JsVal :=
  if s.data = [] then JsVal.num 0
  else if s.data.head? = some '-' then
    match parseNatChars s.data.tail with
    | some m => JsVal.num (-(Int.ofNat m))
    | none => JsVal.nan
  else
    match parseNatChars s.data with
    | some m => JsVal.num (Int.ofNat m)
    | none => JsVal.nan

/-- The `Number` coercion on a stored value. -/
def toNumber : JsVal → JsVal
  | JsVal.nan => JsVal.nan
  | JsVal.null => JsVal.num 0
  | JsVal.num n => JsVal.num n
  | JsVal.bool b => JsVal.num (if b then 1 else 0)
  | JsVal.str s => jsStringToNumber s

/-- JavaScript truthiness on the modelled fragment (for `x || 14`). -/
def truthy : JsVal → Bool
  | JsVal.nan => false
  | JsVal.null => false
  | JsVal.num n => n != 0
  | JsVal.str s => s != ""
  | JsVal.bool b => b

/-- The two editable regions of the mounted diff widget. -/
inductive Side where
  | origSide : Side
  | modSide : Side
deriving DecidableEq

/-- A content-change subscription handle: its region and its listener id
(`editor.onDidChangeModelContent` returns a disposable). -/
abbrev Handle := Side × Nat

/-- The listener registries of the widget's two editable regions: the
ids currently subscribed to each region's content-change event. -/
structure Listeners where
  origIds : List Nat
  modIds : List Nat
deriving DecidableEq

/-- Disposing one handle removes its id from its region's registry
(`d?.dispose?.()`); disposing an already-removed handle is a no-op. -/
def disposeOne (w : Listeners) (h : Handle) : Listeners :=
  match h.1 with
  | Side.origSide => { w with origIds := w.origIds.filter (fun i => i ≠ h.2) }
  | Side.modSide => { w with modIds := w.modIds.filter (fun i => i ≠ h.2) }

/-- `disposablesRef.current.forEach((d) => d?.dispose?.())`. -/
def disposeList (w : Listeners) (ds : List Handle) : Listeners :=
  ds.foldl disposeOne w

/-- The sample text initially shown on the original side. -/
def SAMPLE_ORIGINAL : String :=
  "export function formatUser(name) \x7b\n  return \"Hello \" + name + \"!\"\n\x7d\n\nexport function toSlug(input) \x7b\n  return input.trim().toLowerCase().replaceAll(\" \", \"-\")\n\x7d\n"

/-- The sample text initially shown on the modified side. -/
def SAMPLE_MODIFIED : String :=
  "export function formatUser(name) \x7b\n  const clean = name.trim()\n  return \x60Hello $\x7bclean\x7d!\x60\n\x7d\n\nexport function toSlug(input) \x7b\n  return input.trim().toLowerCase().replaceAll(/\\s+/g, \"-\")\n\x7d\n"

def kOriginal : String := "codeDiff.original"
def kModified : String := "codeDiff.modified"
def kLanguage : String := "codeDiff.language"
def kTheme : String := "codeDiff.theme"
def kSideBySide : String := "codeDiff.sideBySide"
def kIgnoreTrimWhitespace : String := "codeDiff.ignoreTrimWhitespace"
def kFontSize : String := "codeDiff.fontSize"

/-- The full in-memory state of the `App` component together with the
observable environment it drives: the widget's listener registries and
region texts, the pending `setTimeout` timers with simulated time, and a
log of every `writeStorage` call the persistence effects issue. -/
structure AppState where
  original : String
  modified : String
  language : String
  theme : String
  sideBySide : Bool
  ignoreTrimWhitespace : Bool
  fontSize : JsVal
  toast : Option String
  toastTimer : Nat
  widget : Listeners
  disposables : List Handle
  widgetOrigText : String
  widgetModText : String
  nextHandleId : Nat
  timers : List (Nat × Nat)
  nextTimerId : Nat
  now : Nat
  firedCount : Nat
  persistLog : List (String × String)
deriving DecidableEq

/-- The component state on a first visit (empty storage): every field at
its documented default, nothing mounted, no timer pending. -/
def defaultAppState : AppState where
  original := SAMPLE_ORIGINAL
  modified := SAMPLE_MODIFIED
  language := "javascript"
  theme := "vs-dark"
  sideBySide := true
  ignoreTrimWhitespace := true
  fontSize := JsVal.num 14
  toast := none
  toastTimer := 0
  widget := ⟨[], []⟩
  disposables := []
  widgetOrigText := SAMPLE_ORIGINAL
  widgetModText := SAMPLE_MODIFIED
  nextHandleId := 1
  timers := []
  nextTimerId := 1
  now := 0
  firedCount := 0
  persistLog := []

/-- `setOriginal` in functional-updater form.  A new value equal to the
current one bails out (React re-renders nothing, so the persistence
effect does not re-run); otherwise the state changes and the
`useLocalStorageState` effect issues one `writeStorage` call. -/
def setOriginalFn (f : String → String) (s : AppState) : AppState :=
  let v := f s.original
  if v = s.original then s
  else { s with original := v,
                persistLog := s.persistLog ++ [(kOriginal, jsonStringify (JsVal.str v))] }

/-- `setOriginal` with a plain value. -/
def setOriginalV (v : String) (s : AppState) : AppState :=
  setOriginalFn (fun _ => v) s

/-- `setModified` in functional-updater form. -/
def setModifiedFn (f : String → String) (s : AppState) : AppState :=
  let v := f s.modified
  if v = s.modified then s
  else { s with modified := v,
                persistLog := s.persistLog ++ [(kModified, jsonStringify (JsVal.str v))] }

/-- `setModified` with a plain value. -/
def setModifiedV (v : String) (s : AppState) : AppState :=
  setModifiedFn (fun _ => v) s

/-- `setLanguage`. -/
def setLanguageV (v : String) (s : AppState) : AppState :=
  if v = s.language then s
  else { s with language := v,
                persistLog := s.persistLog ++ [(kLanguage, jsonStringify (JsVal.str v))] }

/-- `setTheme`. -/
def setThemeV (v : String) (s : AppState) : AppState :=
  if v = s.theme then s
  else { s with theme := v,
                persistLog := s.persistLog ++ [(kTheme, jsonStringify (JsVal.str v))] }

/-- `setSideBySide`. -/
def setSideBySideV (v : Bool) (s : AppState) : AppState :=
  if v = s.sideBySide then s
  else { s with sideBySide := v,
                persistLog := s.persistLog ++ [(kSideBySide, jsonStringify (JsVal.bool v))] }

/-- `setIgnoreTrimWhitespace`. -/
def setIgnoreTrimV (v : Bool) (s : AppState) : AppState :=
  if v = s.ignoreTrimWhitespace then s
  else { s with ignoreTrimWhitespace := v,
                persistLog := s.persistLog ++ [(kIgnoreTrimWhitespace, jsonStringify (JsVal.bool v))] }

/-- `setFontSize`; note `JSON.stringify(NaN)` persists the text
`null`. -/
def setFontSizeV (v : JsVal) (s : AppState) : AppState :=
  if v = s.fontSize then s
  else { s with fontSize := v,
                persistLog := s.persistLog ++ [(kFontSize, jsonStringify v)] }

/-- `showToast(message)`: set the message, clear any tracked pending
timer, start a fresh 1200 ms timer and remember its id. -/
def showToast (msg : String) (s : AppState) : AppState :=
  let s1 := { s with toast := some msg }
  let s2 :=
    if s1.toastTimer ≠ 0 then
      { s1 with timers := s1.timers.filter (fun t => t.1 ≠ s1.toastTimer) }
    else s1
  { s2 with timers := s2.timers ++ [(s2.nextTimerId, s2.now + 1200)],
            toastTimer := s2.nextTimerId,
            nextTimerId := s2.nextTimerId + 1 }

/-- Advancing simulated time by `d` milliseconds: every pending timer
whose expiry has passed fires its `setToast(null)` callback and is
removed. -/
def elapse (d : Nat) (s : AppState) : AppState :=
  let t := s.now + d
  let fired := s.timers.filter (fun e => e.2 ≤ t)
  { s with now := t,
           toast := if fired.isEmpty then s.toast else none,
           timers := s.timers.filter (fun e => t < e.2),
           firedCount := s.firedCount + fired.length }

/-- `handleMount(editor)`: dispose every previously held handle, clear
the set, then subscribe one content-change listener per region and
retain the two fresh handles. -/
def handleMount (s : AppState) : AppState :=
  let w := disposeList s.widget s.disposables
  let n := s.nextHandleId
  { s with widget := ⟨w.origIds ++ [n], w.modIds ++ [n + 1]⟩,
           disposables := [(Side.origSide, n), (Side.modSide, n + 1)],
           nextHandleId := n + 2 }

/-- The body of the original-side subscription: read the region's
current text and update state only when it differs
(`setOriginal((prev) => (prev === v ? prev : v))`). -/
def origHandler (v : String) (s : AppState) : AppState :=
  setOriginalFn (fun prev => if prev = v then prev else v) s

/-- The body of the modified-side subscription. -/
def modHandler (v : String) (s : AppState) : AppState :=
  setModifiedFn (fun prev => if prev = v then prev else v) s

/-- A content-changed event on the original region whose current text is
`v`: the widget text settles to `v`, then every subscribed listener runs
the handler. -/
def fireOrig (v : String) (s : AppState) : AppState :=
  let s1 := { s with widgetOrigText := v }
  s1.widget.origIds.foldl (fun st _ => origHandler v st) s1

/-- A content-changed event on the modified region. -/
def fireMod (v : String) (s : AppState) : AppState :=
  let s1 := { s with widgetModText := v }
  s1.widget.modIds.foldl (fun st _ => modHandler v st) s1

/-- The unmount cleanup effect: dispose every held handle, clear the
set, and clear any pending toast timer. -/
def unmountCleanup (s : AppState) : AppState :=
  let s1 := { s with widget := disposeList s.widget s.disposables, disposables := [] }
  if s1.toastTimer ≠ 0 then
    { s1 with timers := s1.timers.filter (fun t => t.1 ≠ s1.toastTimer) }
  else s1

/-- `handleReset()`: every option and both buffers back to their
documented defaults, then the "Reset" toast. -/
def handleReset (s : AppState) : AppState :=
  showToast "Reset"
    (setFontSizeV (JsVal.num 14)
      (setIgnoreTrimV true
        (setSideBySideV true
          (setThemeV "vs-dark"
            (setLanguageV "javascript"
              (setModifiedV SAMPLE_MODIFIED
                (setOriginalV SAMPLE_ORIGINAL s)))))))

/-- The platform clipboard: its `writeText`, which may resolve or
reject at the platform's discretion. -/
structure ClipEnv where
  writeText : String → Except String Unit

/-- The source's `copyToClipboard`: any rejection becomes `false`, a
resolution becomes `true`; totality is the "never throws past this
boundary" guarantee. -/
def copyToClipboard (env : ClipEnv) (text : String) : Bool :=
  match env.writeText text with
  | Except.ok _ => true
  | Except.error _ => false

/-- The buffer `handleCopy(which)` reads
(`which === 'original' ? original : modified`). -/
def copySource (which : String) (s : AppState) : String :=
  if which = "original" then s.original else s.modified

/-- `handleCopy(which)`: attempt the clipboard write and report the
outcome through the toast; buffer state is untouched. -/
def handleCopy (env : ClipEnv) (which : String) (s : AppState) : AppState :=
  showToast (if copyToClipboard env (copySource which s) then "Copied" else "Copy failed") s

/-- The options record handed to the diff widget; `fontSize` is
`Number(fontSize) || 14`. -/
structure EditorOptions where
  renderSideBySide : Bool
  originalEditable : Bool
  ignoreTrimWhitespace : Bool
  automaticLayout : Bool
  fontSize : JsVal
  minimapEnabled : Bool
  scrollBeyondLastLine : Bool
deriving DecidableEq

/-- The `options` memo of the component. -/
def appOptions (s : AppState) : EditorOptions where
  renderSideBySide := s.sideBySide
  originalEditable := true
  ignoreTrimWhitespace := s.ignoreTrimWhitespace
  automaticLayout := true
  fontSize := if truthy (toNumber s.fontSize) then toNumber s.fontSize else JsVal.num 14
  minimapEnabled := false
  scrollBeyondLastLine := false

/-- The font-size input's `onChange`:
`setFontSize(Number(e.target.value))`. -/
def fontSizeInputChange (raw : String) (s : AppState) : AppState :=
  setFontSizeV (toNumber (JsVal.str raw)) s

/-- Every live listener id is covered by a held handle of its region:
true of every state the component can reach, since listeners are only
created in `handleMount`, which retains both handles. -/
def SubInv (s : AppState) : Prop :=
  (∀ i ∈ s.widget.origIds, (Side.origSide, i) ∈ s.disposables) ∧
  (∀ i ∈ s.widget.modIds, (Side.modSide, i) ∈ s.disposables)

/-- Every pending timer is the tracked one (nonzero id), there is at
most one, and the id source is past zero: true of every reachable state,
established below for `showToast` and `elapse`. -/
def ToastInv (s : AppState) : Prop :=
  (∀ t ∈ s.timers, t.1 = s.toastTimer ∧ t.1 ≠ 0) ∧
  s.timers.length ≤ 1 ∧ 0 < s.nextTimerId


lemma charDigit_digitChar (d : Nat) (h : d < 10) : charDigit (digitChar d) = some d := by
  interval_cases d <;> decide

lemma digitChar_ne_special (d : Nat) (h : d < 10) :
    digitChar d ≠ 't' ∧ digitChar d ≠ 'f' ∧ digitChar d ≠ 'n' ∧
    digitChar d ≠ '"' ∧ digitChar d ≠ '-' := by
  interval_cases d <;> decide

lemma parseNatAux_digit (acc d : Nat) (hd : d < 10) (cs : List Char) :
    parseNatAux acc (digitChar d :: cs) = parseNatAux (acc * 10 + d) cs := by
  simp [parseNatAux, charDigit_digitChar d hd]

lemma parseNatAux_printNatAux (f : Nat) : ∀ n, n < 10 ^ f →
    ∃ P, 0 < P ∧ ∀ acc cs,
      parseNatAux acc (printNatAux (f + 1) n ++ cs) = parseNatAux (acc * P + n) cs := by
  induction f with
  | zero =>
    intro n hn
    have hn0 : n = 0 := by simpa using hn
    subst hn0
    refine ⟨10, by omega, fun acc cs => ?_⟩
    have h1 : printNatAux 1 0 = [digitChar 0] := by simp [printNatAux]
    rw [h1, List.singleton_append, parseNatAux_digit acc 0 (by omega) cs]
  | succ f ih =>
    intro n hn
    by_cases h10 : n < 10
    · refine ⟨10, by omega, fun acc cs => ?_⟩
      have h1 : printNatAux (f + 1 + 1) n = [digitChar n] := by simp [printNatAux, h10]
      rw [h1, List.singleton_append, parseNatAux_digit acc n h10 cs]
    · have hf : n / 10 < 10 ^ f := by
        apply Nat.div_lt_of_lt_mul
        have hpow : (10 : Nat) ^ (f + 1) = 10 * 10 ^ f := by ring
        rw [← hpow]
        exact hn
      obtain ⟨P, hP, hparse⟩ := ih (n / 10) hf
      refine ⟨P * 10, by positivity, fun acc cs => ?_⟩
      have h1 : printNatAux (f + 1 + 1) n
          = printNatAux (f + 1) (n / 10) ++ [digitChar (n % 10)] := by
        simp [printNatAux, h10]
      rw [h1, List.append_assoc, hparse acc ([digitChar (n % 10)] ++ cs),
        List.singleton_append, parseNatAux_digit _ (n % 10) (Nat.mod_lt _ (by omega)) cs]
      congr 1
      rw [← Nat.mul_assoc]
      have hdm := Nat.div_add_mod n 10
      omega

lemma printNat_ne_nil (n : Nat) : printNat n ≠ [] := by
  unfold printNat printNatAux
  split <;> simp

lemma parseNatChars_printNat (n : Nat) : parseNatChars (printNat n) = some n := by
  obtain ⟨P, hP, hparse⟩ := parseNatAux_printNatAux n n (Nat.lt_pow_self (by norm_num) n)
  have h := hparse 0 []
  rw [List.append_nil] at h
  unfold parseNatChars
  rw [if_neg (printNat_ne_nil n)]
  unfold printNat
  rw [h]
  simp [parseNatAux]

lemma printNatAux_digits (f : Nat) : ∀ n c, c ∈ printNatAux f n →
    ∃ d, d < 10 ∧ c = digitChar d := by
  induction f with
  | zero => intro n c h; simp [printNatAux] at h
  | succ f ih =>
    intro n c h
    by_cases h10 : n < 10
    · simp [printNatAux, h10] at h
      exact ⟨n, h10, h⟩
    · simp [printNatAux, h10] at h
      rcases h with h | h
      · exact ih _ _ h
      · exact ⟨n % 10, Nat.mod_lt _ (by omega), h⟩

lemma cons_ne_of_head_ne {a b : Char} {l1 l2 : List Char} (h : a ≠ b) :
    a :: l1 ≠ b :: l2 := by
  intro he
  injection he with h1 _
  exact h h1

lemma unescChars_cons_plain (c : Char) (h1 : c ≠ '\\') (h2 : c ≠ '"') (cs : List Char) :
    unescChars (c :: cs) = (unescChars cs).map (fun l => c :: l) := by
  rw [unescChars.eq_def]
  simp [h1, h2]

lemma unescChars_cons_esc (d e : Char) (hd : decodeEsc d = some e) (cs : List Char) :
    unescChars ('\\' :: (d :: cs)) = (unescChars cs).map (fun l => e :: l) := by
  simp [unescChars, hd]

lemma unesc_esc (l : List Char) : unescChars (escChars l) = some l := by
  induction l with
  | nil => rfl
  | cons c cs ih =>
    show unescChars (esc1 c ++ escChars cs) = some (c :: cs)
    by_cases h1 : c = '"'
    · subst h1
      rw [show esc1 '"' = ['\\', '"'] from rfl, List.cons_append, List.singleton_append,
        unescChars_cons_esc '"' '"' rfl, ih]
      rfl
    · by_cases h2 : c = '\\'
      · subst h2
        rw [show esc1 '\\' = ['\\', '\\'] from rfl, List.cons_append, List.singleton_append,
          unescChars_cons_esc '\\' '\\' rfl, ih]
        rfl
      · by_cases h3 : c = '\n'
        · subst h3
          rw [show esc1 '\n' = ['\\', 'n'] from rfl, List.cons_append, List.singleton_append,
            unescChars_cons_esc 'n' '\n' rfl, ih]
          rfl
        · by_cases h4 : c = '\t'
          · subst h4
            rw [show esc1 '\t' = ['\\', 't'] from rfl, List.cons_append, List.singleton_append,
              unescChars_cons_esc 't' '\t' rfl, ih]
            rfl
          · by_cases h5 : c = '\r'
            · subst h5
              rw [show esc1 '\r' = ['\\', 'r'] from rfl, List.cons_append,
                List.singleton_append, unescChars_cons_esc 'r' '\r' rfl, ih]
              rfl
            · rw [show esc1 c = [c] from by simp [esc1, h1, h2, h3, h4, h5],
                List.singleton_append, unescChars_cons_plain c h2 h1, ih]
              rfl

/-- Serialization followed by deserialization is the identity on every
storable value other than `NaN` (which `JSON.stringify` collapses to
`null`). -/
theorem jsonParse_stringify (v : JsVal) (hv : v ≠ JsVal.nan) :
    jsonParse (jsonStringify v) = some v := by
  cases v with
  | nan => exact absurd rfl hv
  | null => decide
  | bool b => cases b <;> decide
  | str s =>
    obtain ⟨cs0⟩ := s
    show parseJsonChars ('"' :: (escChars cs0 ++ ['"'])) = some (JsVal.str (String.mk cs0))
    have hT : ('"' :: (escChars cs0 ++ ['"'])) ≠ trueChars := by
      unfold trueChars; exact cons_ne_of_head_ne (by decide)
    have hF : ('"' :: (escChars cs0 ++ ['"'])) ≠ falseChars := by
      unfold falseChars; exact cons_ne_of_head_ne (by decide)
    have hN : ('"' :: (escChars cs0 ++ ['"'])) ≠ nullChars := by
      unfold nullChars; exact cons_ne_of_head_ne (by decide)
    unfold parseJsonChars
    rw [if_neg hT, if_neg hF, if_neg hN]
    simp only [parseAtom, if_pos rfl]
    unfold parseQuoted
    rw [List.getLast?_concat]
    simp [List.dropLast_concat, unesc_esc]
  | num n =>
    rcases lt_or_ge n 0 with hneg | hpos
    · have hp : printInt n = '-' :: printNat n.natAbs := by
        unfold printInt; rw [if_pos hneg]
      show parseJsonChars (printInt n) = some (JsVal.num n)
      rw [hp]
      have hT : ('-' :: printNat n.natAbs) ≠ trueChars := by
        unfold trueChars; exact cons_ne_of_head_ne (by decide)
      have hF : ('-' :: printNat n.natAbs) ≠ falseChars := by
        unfold falseChars; exact cons_ne_of_head_ne (by decide)
      have hN : ('-' :: printNat n.natAbs) ≠ nullChars := by
        unfold nullChars; exact cons_ne_of_head_ne (by decide)
      unfold parseJsonChars
      rw [if_neg hT, if_neg hF, if_neg hN]
      simp only [parseAtom]
      rw [if_pos trivial, parseNatChars_printNat]
      have hval : -(Int.ofNat n.natAbs) = n := by
        rw [Int.ofNat_eq_natCast]
        omega
      show some (JsVal.num (-(Int.ofNat n.natAbs))) = some (JsVal.num n)
      rw [hval]
    · have hp : printInt n = printNat n.toNat := by
        unfold printInt; rw [if_neg (by omega)]
      show parseJsonChars (printInt n) = some (JsVal.num n)
      rw [hp]
      cases hcs : printNat n.toNat with
      | nil => exact absurd hcs (printNat_ne_nil n.toNat)
      | cons c rest =>
        have hcmem : c ∈ printNat n.toNat := by rw [hcs]; exact List.mem_cons_self c rest
        obtain ⟨d, hd10, hcd⟩ := printNatAux_digits _ _ _ hcmem
        subst hcd
        obtain ⟨ht, hf, hn, hq, hm⟩ := digitChar_ne_special d hd10
        have hT : (digitChar d :: rest) ≠ trueChars := by
          unfold trueChars; exact cons_ne_of_head_ne ht
        have hF : (digitChar d :: rest) ≠ falseChars := by
          unfold falseChars; exact cons_ne_of_head_ne hf
        have hN : (digitChar d :: rest) ≠ nullChars := by
          unfold nullChars; exact cons_ne_of_head_ne hn
        unfold parseJsonChars
        rw [if_neg hT, if_neg hF, if_neg hN]
        simp only [parseAtom]
        rw [if_neg hq, if_neg hm, ← hcs, parseNatChars_printNat]
        have hval : Int.ofNat n.toNat = n := by
          rw [Int.ofNat_eq_natCast]
          omega
        show some (JsVal.num (Int.ofNat n.toNat)) = some (JsVal.num n)
        rw [hval]

@[simp] lemma setOriginalFn_original (f : String → String) (s : AppState) :
    (setOriginalFn f s).original = f s.original := by
  unfold setOriginalFn
  try dsimp only
  split <;> simp_all

@[simp] lemma setOriginalFn_modified (f : String → String) (s : AppState) :
    (setOriginalFn f s).modified = s.modified := by
  unfold setOriginalFn
  try dsimp only
  split <;> rfl

@[simp] lemma setOriginalV_original (v : String) (s : AppState) :
    (setOriginalV v s).original = v := by
  unfold setOriginalV
  simp

@[simp] lemma setOriginalV_modified (v : String) (s : AppState) :
    (setOriginalV v s).modified = s.modified := by
  unfold setOriginalV setOriginalFn
  try dsimp only
  split <;> rfl

@[simp] lemma setModifiedV_original (v : String) (s : AppState) :
    (setModifiedV v s).original = s.original := by
  unfold setModifiedV setModifiedFn
  try dsimp only
  split <;> rfl

@[simp] lemma setModifiedV_modified (v : String) (s : AppState) :
    (setModifiedV v s).modified = v := by
  unfold setModifiedV setModifiedFn
  try dsimp only
  split <;> simp_all

@[simp] lemma setLanguageV_original (v : String) (s : AppState) :
    (setLanguageV v s).original = s.original := by
  unfold setLanguageV
  try dsimp only
  split <;> rfl

@[simp] lemma setLanguageV_modified (v : String) (s : AppState) :
    (setLanguageV v s).modified = s.modified := by
  unfold setLanguageV
  try dsimp only
  split <;> rfl

@[simp] lemma setLanguageV_language (v : String) (s : AppState) :
    (setLanguageV v s).language = v := by
  unfold setLanguageV
  try dsimp only
  split <;> simp_all

@[simp] lemma setThemeV_original (v : String) (s : AppState) :
    (setThemeV v s).original = s.original := by
  unfold setThemeV
  try dsimp only
  split <;> rfl

@[simp] lemma setThemeV_modified (v : String) (s : AppState) :
    (setThemeV v s).modified = s.modified := by
  unfold setThemeV
  try dsimp only
  split <;> rfl

@[simp] lemma setThemeV_language (v : String) (s : AppState) :
    (setThemeV v s).language = s.language := by
  unfold setThemeV
  try dsimp only
  split <;> rfl

@[simp] lemma setThemeV_theme (v : String) (s : AppState) :
    (setThemeV v s).theme = v := by
  unfold setThemeV
  try dsimp only
  split <;> simp_all

@[simp] lemma setSideBySideV_original (v : Bool) (s : AppState) :
    (setSideBySideV v s).original = s.original := by
  unfold setSideBySideV
  try dsimp only
  split <;> rfl

@[simp] lemma setSideBySideV_modified (v : Bool) (s : AppState) :
    (setSideBySideV v s).modified = s.modified := by
  unfold setSideBySideV
  try dsimp only
  split <;> rfl

@[simp] lemma setSideBySideV_language (v : Bool) (s : AppState) :
    (setSideBySideV v s).language = s.language := by
  unfold setSideBySideV
  try dsimp only
  split <;> rfl

@[simp] lemma setSideBySideV_theme (v : Bool) (s : AppState) :
    (setSideBySideV v s).theme = s.theme := by
  unfold setSideBySideV
  try dsimp only
  split <;> rfl

@[simp] lemma setSideBySideV_sideBySide (v : Bool) (s : AppState) :
    (setSideBySideV v s).sideBySide = v := by
  unfold setSideBySideV
  try dsimp only
  split <;> simp_all

@[simp] lemma setIgnoreTrimV_original (v : Bool) (s : AppState) :
    (setIgnoreTrimV v s).original = s.original := by
  unfold setIgnoreTrimV
  try dsimp only
  split <;> rfl

@[simp] lemma setIgnoreTrimV_modified (v : Bool) (s : AppState) :
    (setIgnoreTrimV v s).modified = s.modified := by
  unfold setIgnoreTrimV
  try dsimp only
  split <;> rfl

@[simp] lemma setIgnoreTrimV_language (v : Bool) (s : AppState) :
    (setIgnoreTrimV v s).language = s.language := by
  unfold setIgnoreTrimV
  try dsimp only
  split <;> rfl

@[simp] lemma setIgnoreTrimV_theme (v : Bool) (s : AppState) :
    (setIgnoreTrimV v s).theme = s.theme := by
  unfold setIgnoreTrimV
  try dsimp only
  split <;> rfl

@[simp] lemma setIgnoreTrimV_sideBySide (v : Bool) (s : AppState) :
    (setIgnoreTrimV v s).sideBySide = s.sideBySide := by
  unfold setIgnoreTrimV
  try dsimp only
  split <;> rfl

@[simp] lemma setIgnoreTrimV_ignoreTrimWhitespace (v : Bool) (s : AppState) :
    (setIgnoreTrimV v s).ignoreTrimWhitespace = v := by
  unfold setIgnoreTrimV
  try dsimp only
  split <;> simp_all

@[simp] lemma setFontSizeV_original (v : JsVal) (s : AppState) :
    (setFontSizeV v s).original = s.original := by
  unfold setFontSizeV
  try dsimp only
  split <;> rfl

@[simp] lemma setFontSizeV_modified (v : JsVal) (s : AppState) :
    (setFontSizeV v s).modified = s.modified := by
  unfold setFontSizeV
  try dsimp only
  split <;> rfl

@[simp] lemma setFontSizeV_language (v : JsVal) (s : AppState) :
    (setFontSizeV v s).language = s.language := by
  unfold setFontSizeV
  try dsimp only
  split <;> rfl

@[simp] lemma setFontSizeV_theme (v : JsVal) (s : AppState) :
    (setFontSizeV v s).theme = s.theme := by
  unfold setFontSizeV
  try dsimp only
  split <;> rfl

@[simp] lemma setFontSizeV_sideBySide (v : JsVal) (s : AppState) :
    (setFontSizeV v s).sideBySide = s.sideBySide := by
  unfold setFontSizeV
  try dsimp only
  split <;> rfl

@[simp] lemma setFontSizeV_ignoreTrimWhitespace (v : JsVal) (s : AppState) :
    (setFontSizeV v s).ignoreTrimWhitespace = s.ignoreTrimWhitespace := by
  unfold setFontSizeV
  try dsimp only
  split <;> rfl

@[simp] lemma setFontSizeV_fontSize (v : JsVal) (s : AppState) :
    (setFontSizeV v s).fontSize = v := by
  unfold setFontSizeV
  try dsimp only
  split <;> simp_all

@[simp] lemma showToast_toast (msg : String) (s : AppState) :
    (showToast msg s).toast = some msg := by
  unfold showToast
  try dsimp only
  split <;> rfl

@[simp] lemma showToast_original (msg : String) (s : AppState) :
    (showToast msg s).original = s.original := by
  unfold showToast
  try dsimp only
  split <;> rfl

@[simp] lemma showToast_modified (msg : String) (s : AppState) :
    (showToast msg s).modified = s.modified := by
  unfold showToast
  try dsimp only
  split <;> rfl

@[simp] lemma showToast_language (msg : String) (s : AppState) :
    (showToast msg s).language = s.language := by
  unfold showToast
  try dsimp only
  split <;> rfl

@[simp] lemma showToast_theme (msg : String) (s : AppState) :
    (showToast msg s).theme = s.theme := by
  unfold showToast
  try dsimp only
  split <;> rfl

@[simp] lemma showToast_sideBySide (msg : String) (s : AppState) :
    (showToast msg s).sideBySide = s.sideBySide := by
  unfold showToast
  try dsimp only
  split <;> rfl

@[simp] lemma showToast_ignoreTrimWhitespace (msg : String) (s : AppState) :
    (showToast msg s).ignoreTrimWhitespace = s.ignoreTrimWhitespace := by
  unfold showToast
  try dsimp only
  split <;> rfl

@[simp] lemma showToast_fontSize (msg : String) (s : AppState) :
    (showToast msg s).fontSize = s.fontSize := by
  unfold showToast
  try dsimp only
  split <;> rfl

@[simp] lemma showToast_toastTimer (msg : String) (s : AppState) :
    (showToast msg s).toastTimer = s.nextTimerId := by
  unfold showToast
  try dsimp only
  split <;> rfl

@[simp] lemma showToast_nextTimerId (msg : String) (s : AppState) :
    (showToast msg s).nextTimerId = s.nextTimerId + 1 := by
  unfold showToast
  try dsimp only
  split <;> rfl

@[simp] lemma showToast_now (msg : String) (s : AppState) :
    (showToast msg s).now = s.now := by
  unfold showToast
  try dsimp only
  split <;> rfl

@[simp] lemma showToast_firedCount (msg : String) (s : AppState) :
    (showToast msg s).firedCount = s.firedCount := by
  unfold showToast
  try dsimp only
  split <;> rfl

lemma showToast_timers (msg : String) (s : AppState) :
    (showToast msg s).timers
      = (if s.toastTimer ≠ 0 then s.timers.filter (fun t => t.1 ≠ s.toastTimer) else s.timers)
        ++ [(s.nextTimerId, s.now + 1200)] := by
  unfold showToast
  try dsimp only
  split <;> simp_all

@[simp] lemma handleMount_original (s : AppState) :
    (handleMount s).original = s.original := rfl

@[simp] lemma handleMount_modified (s : AppState) :
    (handleMount s).modified = s.modified := rfl

@[simp] lemma handleMount_persistLog (s : AppState) :
    (handleMount s).persistLog = s.persistLog := rfl

@[simp] lemma handleMount_toastTimer (s : AppState) :
    (handleMount s).toastTimer = s.toastTimer := rfl

@[simp] lemma handleMount_timers (s : AppState) :
    (handleMount s).timers = s.timers := rfl

@[simp] lemma handleMount_nextTimerId (s : AppState) :
    (handleMount s).nextTimerId = s.nextTimerId := rfl

lemma handleMount_widget (s : AppState) :
    (handleMount s).widget
      = ⟨(disposeList s.widget s.disposables).origIds ++ [s.nextHandleId],
         (disposeList s.widget s.disposables).modIds ++ [s.nextHandleId + 1]⟩ := rfl

lemma handleMount_disposables (s : AppState) :
    (handleMount s).disposables
      = [(Side.origSide, s.nextHandleId), (Side.modSide, s.nextHandleId + 1)] := rfl

@[simp] lemma handleMount_nextHandleId (s : AppState) :
    (handleMount s).nextHandleId = s.nextHandleId + 2 := rfl

/-- Disposing a set of handles that covers every live listener empties
both listener registries, whatever else the set contains. -/
lemma disposeList_nil_of_covered (ds : List Handle) : ∀ w : Listeners,
    (∀ i ∈ w.origIds, (Side.origSide, i) ∈ ds) →
    (∀ i ∈ w.modIds, (Side.modSide, i) ∈ ds) →
    disposeList w ds = ⟨[], []⟩ := by
  induction ds with
  | nil =>
    intro w h1 h2
    have ho : w.origIds = [] := by
      rw [List.eq_nil_iff_forall_not_mem]
      intro i hi
      simpa using h1 i hi
    have hm : w.modIds = [] := by
      rw [List.eq_nil_iff_forall_not_mem]
      intro i hi
      simpa using h2 i hi
    cases w with
    | mk o m => simp_all [disposeList]
  | cons d ds ih =>
    intro w h1 h2
    show disposeList (disposeOne w d) ds = ⟨[], []⟩
    obtain ⟨sd, j⟩ := d
    apply ih
    · intro i hi
      cases sd with
      | origSide =>
        simp only [disposeOne, List.mem_filter] at hi
        obtain ⟨hmem, hne⟩ := hi
        have hne2 : i ≠ j := by simpa using hne
        rcases List.mem_cons.mp (h1 i hmem) with heq | hmem2
        · exact absurd (by injection heq) hne2
        · exact hmem2
      | modSide =>
        have hmem : i ∈ w.origIds := hi
        rcases List.mem_cons.mp (h1 i hmem) with heq | hmem2
        · exact absurd heq (by simp)
        · exact hmem2
    · intro i hi
      cases sd with
      | origSide =>
        have hmem : i ∈ w.modIds := hi
        rcases List.mem_cons.mp (h2 i hmem) with heq | hmem2
        · exact absurd heq (by simp)
        · exact hmem2
      | modSide =>
        simp only [disposeOne, List.mem_filter] at hi
        obtain ⟨hmem, hne⟩ := hi
        have hne2 : i ≠ j := by simpa using hne
        rcases List.mem_cons.mp (h2 i hmem) with heq | hmem2
        · exact absurd (by injection heq) hne2
        · exact hmem2

/-- Disposing exactly the two handles `handleMount` just created empties
the registries again. -/
lemma disposeList_fresh_pair (n : Nat) :
    disposeList ⟨[n], [n + 1]⟩ [(Side.origSide, n), (Side.modSide, n + 1)] = ⟨[], []⟩ := by
  simp [disposeList, disposeOne]

/-- The subscription handler leaves the state alone when the incoming
text equals the stored one. -/
lemma origHandler_of_eq (v : String) (s : AppState) (h : s.original = v) :
    origHandler v s = s := by
  simp [origHandler, setOriginalFn, h]

lemma modHandler_of_eq (v : String) (s : AppState) (h : s.modified = v) :
    modHandler v s = s := by
  simp [modHandler, setModifiedFn, h]

/-- The subscription handler stores the incoming text and issues exactly
one persistence write when it differs from the stored one. -/
lemma origHandler_of_ne (v : String) (s : AppState) (h : s.original ≠ v) :
    origHandler v s
      = { s with original := v,
                 persistLog := s.persistLog ++ [(kOriginal, jsonStringify (JsVal.str v))] } := by
  simp [origHandler, setOriginalFn, h, Ne.symm h]

lemma modHandler_of_ne (v : String) (s : AppState) (h : s.modified ≠ v) :
    modHandler v s
      = { s with modified := v,
                 persistLog := s.persistLog ++ [(kModified, jsonStringify (JsVal.str v))] } := by
  simp [modHandler, setModifiedFn, h, Ne.symm h]

lemma foldl_origHandler_id (ids : List Nat) (v : String) (s : AppState)
    (h : s.original = v) :
    ids.foldl (fun st _ => origHandler v st) s = s := by
  induction ids with
  | nil => rfl
  | cons i ids ih => rw [List.foldl_cons, origHandler_of_eq v s h, ih]

lemma foldl_modHandler_id (ids : List Nat) (v : String) (s : AppState)
    (h : s.modified = v) :
    ids.foldl (fun st _ => modHandler v st) s = s := by
  induction ids with
  | nil => rfl
  | cons i ids ih => rw [List.foldl_cons, modHandler_of_eq v s h, ih]

/-- C2: a content-changed event whose text equals the stored
`BufferState` value for that side leaves the component state unchanged
apart from the widget's own text (in particular the buffer field and
the persistence log are untouched, so no Persisted Field Store write is
issued). -/
theorem contentEventDedup (s : AppState) (v : String) :
    (s.original = v →
      fireOrig v s = { s with widgetOrigText := v } ∧
      (fireOrig v s).original = s.original ∧
      (fireOrig v s).persistLog = s.persistLog) ∧
    (s.modified = v →
      fireMod v s = { s with widgetModText := v } ∧
      (fireMod v s).modified = s.modified ∧
      (fireMod v s).persistLog = s.persistLog) := by
  constructor
  · intro h
    have he : fireOrig v s = { s with widgetOrigText := v } := by
      unfold fireOrig
      exact foldl_origHandler_id _ v _ h
    refine ⟨he, ?_, ?_⟩ <;> rw [he]
  · intro h
    have he : fireMod v s = { s with widgetModText := v } := by
      unfold fireMod
      exact foldl_modHandler_id _ v _ h
    refine ⟨he, ?_, ?_⟩ <;> rw [he]

/-- Witness for C2 at a concrete state: the event carrying the already
stored sample text changes nothing but the widget text field. -/
theorem contentEventDedup_witness :
    fireOrig SAMPLE_ORIGINAL defaultAppState
        = { defaultAppState with widgetOrigText := SAMPLE_ORIGINAL } ∧
    fireMod SAMPLE_MODIFIED defaultAppState
        = { defaultAppState with widgetModText := SAMPLE_MODIFIED } :=
  ⟨((contentEventDedup defaultAppState SAMPLE_ORIGINAL).1 rfl).1,
   ((contentEventDedup defaultAppState SAMPLE_MODIFIED).2 rfl).1⟩

/-- C3: against a functioning store, `write(key, v)` followed by
`read(key, fallback)` returns `v`, not the fallback, for every valid
(non-`NaN`) value: serialization then deserialization is the
identity. -/
theorem storageWriteReadRoundTrip (st : Store) (k : String) (v fb : JsVal)
    (hv : v ≠ JsVal.nan) (hd : st.disabled = false) (hf : st.full = false) :
    readStorage (writeStorage st k v) k fb = v := by
  have hcond : ¬(st.disabled = true ∨ st.full = true) := by simp [hd, hf]
  unfold writeStorage setItemE
  rw [if_neg hcond]
  simp [readStorage, getItemE, getEntry, hd, jsonParse_stringify v hv]

/-- Witness for C3 at concrete inputs, one per stored shape. -/
theorem storageWriteReadRoundTrip_witness :
    readStorage (writeStorage ⟨[], false, false⟩ kLanguage (JsVal.str "javascript"))
        kLanguage (JsVal.str "plaintext") = JsVal.str "javascript" ∧
    readStorage (writeStorage ⟨[], false, false⟩ kFontSize (JsVal.num 14))
        kFontSize (JsVal.num 0) = JsVal.num 14 ∧
    readStorage (writeStorage ⟨[], false, false⟩ kSideBySide (JsVal.bool true))
        kSideBySide (JsVal.bool false) = JsVal.bool true :=
  ⟨storageWriteReadRoundTrip _ _ _ _ (by decide) rfl rfl,
   storageWriteReadRoundTrip _ _ _ _ (by decide) rfl rfl,
   storageWriteReadRoundTrip _ _ _ _ (by decide) rfl rfl⟩

/-- C4: `read` returns the fallback — instead of propagating an error —
when the store raises, the key is absent, or the stored text fails to
parse; and `write` absorbs a raising store, leaving it unchanged.  Both
functions are total with error-free result types: no storage error
reaches their callers. -/
theorem storageFailureAbsorbed (st : Store) (k : String) (fb : JsVal) :
    (st.disabled = true → readStorage st k fb = fb) ∧
    (st.disabled = false → getEntry st.entries k = none → readStorage st k fb = fb) ∧
    (∀ raw, st.disabled = false → getEntry st.entries k = some raw → jsonParse raw = none →
      readStorage st k fb = fb) ∧
    (∀ v, st.disabled = true ∨ st.full = true → writeStorage st k v = st) := by
  refine ⟨fun h => ?_, fun hd h => ?_, fun raw hd h hp => ?_, fun v h => ?_⟩
  · simp [readStorage, getItemE, h]
  · simp [readStorage, getItemE, hd, h]
  · simp [readStorage, getItemE, hd, h, hp]
  · unfold writeStorage setItemE
    rw [if_pos h]

/-- Witness for C4: a disabled store, an absent key, a corrupt stored
text, and a quota-limited write, each at concrete inputs. -/
theorem storageFailureAbsorbed_witness :
    readStorage ⟨[], true, false⟩ kTheme (JsVal.str "vs-dark") = JsVal.str "vs-dark" ∧
    readStorage ⟨[], false, false⟩ kTheme (JsVal.str "vs-dark") = JsVal.str "vs-dark" ∧
    readStorage ⟨[(kTheme, "oops")], false, false⟩ kTheme (JsVal.str "vs-dark")
        = JsVal.str "vs-dark" ∧
    writeStorage ⟨[], false, true⟩ kTheme (JsVal.str "light") = ⟨[], false, true⟩ :=
  ⟨(storageFailureAbsorbed ⟨[], true, false⟩ kTheme _).1 rfl,
   (storageFailureAbsorbed ⟨[], false, false⟩ kTheme _).2.1 rfl rfl,
   (storageFailureAbsorbed ⟨[(kTheme, "oops")], false, false⟩ kTheme _).2.2.1 "oops" rfl rfl
     (by decide),
   (storageFailureAbsorbed ⟨[], false, true⟩ kTheme (JsVal.str "vs-dark")).2.2.2
     (JsVal.str "light") (Or.inr rfl)⟩

/-- With a single original-side listener, one content-change event with
fresh text updates the buffer once and issues exactly one persistence
write. -/
lemma fireOrig_single (s : AppState) (v : String) (i : Nat)
    (hw : s.widget.origIds = [i]) (hne : s.original ≠ v) :
    (fireOrig v s).original = v ∧
    (fireOrig v s).persistLog
      = s.persistLog ++ [(kOriginal, jsonStringify (JsVal.str v))] := by
  unfold fireOrig
  dsimp only
  have hids : ({ s with widgetOrigText := v } : AppState).widget.origIds = [i] := hw
  rw [hids, List.foldl_cons, List.foldl_nil,
    origHandler_of_ne v ({ s with widgetOrigText := v } : AppState) hne]
  exact ⟨rfl, rfl⟩

lemma fireMod_single (s : AppState) (v : String) (i : Nat)
    (hw : s.widget.modIds = [i]) (hne : s.modified ≠ v) :
    (fireMod v s).modified = v ∧
    (fireMod v s).persistLog
      = s.persistLog ++ [(kModified, jsonStringify (JsVal.str v))] := by
  unfold fireMod
  dsimp only
  have hids : ({ s with widgetModText := v } : AppState).widget.modIds = [i] := hw
  rw [hids, List.foldl_cons, List.foldl_nil,
    modHandler_of_ne v ({ s with widgetModText := v } : AppState) hne]
  exact ⟨rfl, rfl⟩

/-- C1: calling `attach`/`handleMount` twice in succession leaves
exactly one live subscription per editable region (the first call's
handles are all disposed before new ones are created), and a single
content-change event carrying fresh text then updates the matching
`BufferState` field exactly once — one state change, one persistence
write, not two. -/
theorem attachTwiceSingleSubscription (s : AppState) (h : SubInv s) :
    (handleMount (handleMount s)).widget.origIds.length = 1 ∧
    (handleMount (handleMount s)).widget.modIds.length = 1 ∧
    (∀ v, v ≠ (handleMount (handleMount s)).original →
      (fireOrig v (handleMount (handleMount s))).original = v ∧
      (fireOrig v (handleMount (handleMount s))).persistLog
        = (handleMount (handleMount s)).persistLog
            ++ [(kOriginal, jsonStringify (JsVal.str v))]) ∧
    (∀ v, v ≠ (handleMount (handleMount s)).modified →
      (fireMod v (handleMount (handleMount s))).modified = v ∧
      (fireMod v (handleMount (handleMount s))).persistLog
        = (handleMount (handleMount s)).persistLog
            ++ [(kModified, jsonStringify (JsVal.str v))]) := by
  obtain ⟨h1, h2⟩ := h
  have hd1 : disposeList s.widget s.disposables = ⟨[], []⟩ :=
    disposeList_nil_of_covered s.disposables s.widget h1 h2
  have hw1 : (handleMount s).widget = ⟨[s.nextHandleId], [s.nextHandleId + 1]⟩ := by
    rw [handleMount_widget, hd1]
    rfl
  have hw2 : (handleMount (handleMount s)).widget
      = ⟨[s.nextHandleId + 2], [s.nextHandleId + 2 + 1]⟩ := by
    rw [handleMount_widget, handleMount_disposables, hw1, handleMount_nextHandleId,
      disposeList_fresh_pair s.nextHandleId]
    rfl
  refine ⟨?_, ?_, ?_, ?_⟩
  · rw [hw2]
    rfl
  · rw [hw2]
    rfl
  · intro v hv
    exact fireOrig_single _ v (s.nextHandleId + 2) (by rw [hw2]) (Ne.symm hv)
  · intro v hv
    exact fireMod_single _ v (s.nextHandleId + 2 + 1) (by rw [hw2]) (Ne.symm hv)

/-- Witness for C1: two mounts from the initial state leave one
listener per region, and an event carrying the one-character text "x"
(distinct from the sample) updates the buffer and log once. -/
theorem attachTwiceSingleSubscription_witness :
    (handleMount (handleMount defaultAppState)).widget.origIds.length = 1 ∧
    (fireOrig "x" (handleMount (handleMount defaultAppState))).original = "x" ∧
    (fireOrig "x" (handleMount (handleMount defaultAppState))).persistLog
      = (handleMount (handleMount defaultAppState)).persistLog
          ++ [(kOriginal, jsonStringify (JsVal.str "x"))] := by
  have hS : SubInv defaultAppState := by
    constructor <;> intro i hi <;> simp [defaultAppState] at hi
  have h := attachTwiceSingleSubscription defaultAppState hS
  have hne : "x" ≠ (handleMount (handleMount defaultAppState)).original := by
    rw [handleMount_original, handleMount_original]
    decide
  exact ⟨h.1, (h.2.2.1 "x" hne).1, (h.2.2.1 "x" hne).2⟩

/-- C5: `handleReset` restores both buffers and every option to the
documented defaults and raises the "Reset" toast.  The whole reset is a
single state transition of the event-driven model, so no reader can
observe a partial reset. -/
theorem resetRestoresDefaults (s : AppState) :
    (handleReset s).original = SAMPLE_ORIGINAL ∧
    (handleReset s).modified = SAMPLE_MODIFIED ∧
    (handleReset s).language = "javascript" ∧
    (handleReset s).theme = "vs-dark" ∧
    (handleReset s).sideBySide = true ∧
    (handleReset s).ignoreTrimWhitespace = true ∧
    (handleReset s).fontSize = JsVal.num 14 ∧
    (handleReset s).toast = some "Reset" := by
  unfold handleReset
  refine ⟨?_, ?_, ?_, ?_, ?_, ?_, ?_, ?_⟩ <;> simp

/-- The `Number` coercion always yields `NaN` or an integer on the
modelled fragment. -/
lemma toNumber_shape (v : JsVal) :
    toNumber v = JsVal.nan ∨ ∃ n : Int, toNumber v = JsVal.num n := by
  cases v with
  | nan => exact Or.inl rfl
  | null => exact Or.inr ⟨0, rfl⟩
  | num n => exact Or.inr ⟨n, rfl⟩
  | bool b => cases b with
    | false => exact Or.inr ⟨0, rfl⟩
    | true => exact Or.inr ⟨1, rfl⟩
  | str s =>
    show jsStringToNumber s = JsVal.nan ∨ ∃ n : Int, jsStringToNumber s = JsVal.num n
    unfold jsStringToNumber
    by_cases h0 : s.data = []
    · rw [if_pos h0]
      exact Or.inr ⟨0, rfl⟩
    · rw [if_neg h0]
      by_cases hm : s.data.head? = some '-'
      · rw [if_pos hm]
        cases hp : parseNatChars s.data.tail with
        | none => exact Or.inl rfl
        | some m => exact Or.inr ⟨-(Int.ofNat m), rfl⟩
      · rw [if_neg hm]
        cases hp : parseNatChars s.data with
        | none => exact Or.inl rfl
        | some m => exact Or.inr ⟨Int.ofNat m, rfl⟩

/-- C6 counterexample: with the non-numeric input text "abc", the font
size setter stores `Number("abc") = NaN` into the component state — not
the default 14 the claim promises. -/
theorem fontSizeSetterStoresNaN :
    (fontSizeInputChange "abc" defaultAppState).fontSize = JsVal.nan ∧
    JsVal.nan ≠ JsVal.num 14 := by
  constructor
  · decide
  · decide

/-- C6 as amended: the font size setter coerces its input with `Number`
and stores the result as-is — `NaN` included — but the default 14 is
applied where the options object is built, so a widget handed those
options never receives `NaN`. -/
theorem fontSizeSetterAmended (s : AppState) (raw : String) :
    (fontSizeInputChange raw s).fontSize = toNumber (JsVal.str raw) ∧
    (toNumber (JsVal.str raw) = JsVal.nan →
      (appOptions (fontSizeInputChange raw s)).fontSize = JsVal.num 14) := by
  constructor
  · simp [fontSizeInputChange]
  · intro h
    have h2 : (fontSizeInputChange raw s).fontSize = JsVal.nan := by
      unfold fontSizeInputChange
      rw [setFontSizeV_fontSize]
      exact h
    show (if truthy (toNumber ((fontSizeInputChange raw s).fontSize))
        then toNumber ((fontSizeInputChange raw s).fontSize) else JsVal.num 14) = JsVal.num 14
    rw [h2]
    decide

/-- Witness for C6's amended theorem at the concrete input "abc". -/
theorem fontSizeSetterAmended_witness :
    (appOptions (fontSizeInputChange "abc" defaultAppState)).fontSize = JsVal.num 14 :=
  (fontSizeSetterAmended defaultAppState "abc").2 (by decide)

/-- C10 counterexample: a persisted font size of `-5` (storable by an
earlier session, and read back verbatim on load) is truthy, so the
options object hands the widget the non-positive font size `-5`; the
claim's "always positive" is false. -/
theorem optionsFontSizeNegative :
    readStorage ⟨[(kFontSize, "-5")], false, false⟩ kFontSize (JsVal.num 14)
        = JsVal.num (-5) ∧
    (appOptions { defaultAppState with fontSize := JsVal.num (-5) }).fontSize
        = JsVal.num (-5) ∧
    ¬(0 < (-5 : Int)) := by
  refine ⟨by decide, by decide, by decide⟩

/-- C10 as amended: the options object always hands the widget a plain
integer font size — `Number(fontSize)` when that is truthy, otherwise
14 — and never `NaN`, though it need not be positive when storage holds
a negative number. -/
theorem optionsFontSizeNeverNaN (s : AppState) :
    (∃ n : Int, (appOptions s).fontSize = JsVal.num n) ∧
    (appOptions s).fontSize ≠ JsVal.nan ∧
    (appOptions s).fontSize
      = (if truthy (toNumber s.fontSize) then toNumber s.fontSize else JsVal.num 14) := by
  have hex : ∃ n : Int, (appOptions s).fontSize = JsVal.num n := by
    by_cases ht : truthy (toNumber s.fontSize) = true
    · rcases toNumber_shape s.fontSize with h | ⟨n, h⟩
      · rw [h] at ht
        simp [truthy] at ht
      · refine ⟨n, ?_⟩
        show (if truthy (toNumber s.fontSize) then toNumber s.fontSize else JsVal.num 14)
          = JsVal.num n
        rw [h] at ht ⊢
        rw [if_pos ht]
    · have ht2 : truthy (toNumber s.fontSize) = false := by
        cases htt : truthy (toNumber s.fontSize)
        · rfl
        · exact absurd htt ht
      refine ⟨14, ?_⟩
      show (if truthy (toNumber s.fontSize) then toNumber s.fontSize else JsVal.num 14)
        = JsVal.num 14
      simp [ht2]
  refine ⟨hex, ?_, rfl⟩
  obtain ⟨n, hn⟩ := hex
  rw [hn]
  simp

@[simp] lemma elapse_toast (d : Nat) (s : AppState) :
    (elapse d s).toast
      = (if (s.timers.filter (fun e => e.2 ≤ s.now + d)).isEmpty then s.toast else none) := rfl

@[simp] lemma elapse_firedCount (d : Nat) (s : AppState) :
    (elapse d s).firedCount
      = s.firedCount + (s.timers.filter (fun e => e.2 ≤ s.now + d)).length := rfl

@[simp] lemma elapse_timers (d : Nat) (s : AppState) :
    (elapse d s).timers = s.timers.filter (fun e => s.now + d < e.2) := rfl

/-- Under the timer invariant, `showToast` cancels whatever was pending
and leaves exactly its own fresh timer. -/
lemma showToast_timers_inv (msg : String) (s : AppState) (h : ToastInv s) :
    (showToast msg s).timers = [(s.nextTimerId, s.now + 1200)] := by
  obtain ⟨hall, hlen, hpos⟩ := h
  rw [showToast_timers]
  by_cases h0 : s.toastTimer = 0
  · rw [if_neg (by simp [h0])]
    have hnil : s.timers = [] := by
      rw [List.eq_nil_iff_forall_not_mem]
      intro t ht
      obtain ⟨he, hne⟩ := hall t ht
      exact hne (he.trans h0)
    rw [hnil]
    rfl
  · rw [if_pos h0]
    have hnil : s.timers.filter (fun t => t.1 ≠ s.toastTimer) = [] := by
      rw [List.filter_eq_nil_iff]
      intro t ht
      obtain ⟨he, _⟩ := hall t ht
      simp [he]
    rw [hnil]
    rfl

/-- C7: `showToast` preserves the at-most-one-pending-timer invariant
(cancelling any prior timer before arming its own); a show followed by
1200 ms of elapsed time clears the message; and in the X-then-Y
overwrite scenario only "Y" is ever visible afterwards and exactly one
timer ever fires. -/
theorem toastTimerDiscipline :
    (∀ s msg, ToastInv s →
      ToastInv (showToast msg s) ∧ (showToast msg s).timers.length ≤ 1) ∧
    (∀ s msg d, 1200 ≤ d → (elapse d (showToast msg s)).toast = none) ∧
    ((showToast "Y" (showToast "X" defaultAppState)).toast = some "Y") ∧
    ((showToast "Y" (showToast "X" defaultAppState)).timers.length = 1) ∧
    ((elapse 1201 (showToast "Y" (showToast "X" defaultAppState))).toast = none) ∧
    ((elapse 1201 (showToast "Y" (showToast "X" defaultAppState))).firedCount = 1) := by
  refine ⟨fun s msg h => ?_, fun s msg d hd => ?_, by decide, by decide, by decide, by decide⟩
  · have ht := showToast_timers_inv msg s h
    obtain ⟨hall, hlen, hpos⟩ := h
    refine ⟨⟨?_, ?_, ?_⟩, ?_⟩
    · intro t htm
      rw [ht, List.mem_singleton] at htm
      subst htm
      rw [showToast_toastTimer]
      exact ⟨rfl, by omega⟩
    · rw [ht]
      simp
    · rw [showToast_nextTimerId]
      omega
    · rw [ht]
      simp
  · have hmem : (s.nextTimerId, s.now + 1200) ∈ (showToast msg s).timers := by
      rw [showToast_timers]
      exact List.mem_append_right _ (List.mem_singleton_self _)
    have hfired : (s.nextTimerId, s.now + 1200)
        ∈ (showToast msg s).timers.filter
            (fun e => e.2 ≤ (showToast msg s).now + d) := by
      rw [List.mem_filter]
      refine ⟨hmem, ?_⟩
      rw [showToast_now]
      simp
      omega
    have hne : ((showToast msg s).timers.filter
        (fun e => e.2 ≤ (showToast msg s).now + d)).isEmpty ≠ true := by
      intro hemp
      rw [List.isEmpty_iff] at hemp
      exact (List.ne_nil_of_mem hfired) hemp
    rw [elapse_toast, if_neg hne]

/-- Witness for C7's quantified parts at concrete inputs. -/
theorem toastTimerDiscipline_witness :
    ToastInv (showToast "Copied" defaultAppState) ∧
    (showToast "Copied" defaultAppState).timers.length ≤ 1 ∧
    (elapse 1200 (showToast "Copied" defaultAppState)).toast = none := by
  have hInv : ToastInv defaultAppState := ⟨by decide, by decide, by decide⟩
  obtain ⟨ha, hb⟩ := toastTimerDiscipline.1 defaultAppState "Copied" hInv
  exact ⟨ha, hb, toastTimerDiscipline.2.1 defaultAppState "Copied" 1200 (by omega)⟩

/-- C8: the clipboard adapter converts a resolving platform write to
`true` and any rejection to `false` (both functions are total, so no
failure escapes as an exception), and a rejected write surfaces as the
"Copy failed" toast from `handleCopy`, which returns normally. -/
theorem clipboardFailureHandled (env : ClipEnv) :
    (∀ text u, env.writeText text = Except.ok u → copyToClipboard env text = true) ∧
    (∀ text e, env.writeText text = Except.error e → copyToClipboard env text = false) ∧
    (∀ s which e, env.writeText (copySource which s) = Except.error e →
      (handleCopy env which s).toast = some "Copy failed") ∧
    (∀ s which u, env.writeText (copySource which s) = Except.ok u →
      (handleCopy env which s).toast = some "Copied") := by
  refine ⟨fun text u h => ?_, fun text e h => ?_,
    fun s which e h => ?_, fun s which u h => ?_⟩
  · simp [copyToClipboard, h]
  · simp [copyToClipboard, h]
  · unfold handleCopy
    rw [showToast_toast]
    simp [copyToClipboard, h]
  · unfold handleCopy
    rw [showToast_toast]
    simp [copyToClipboard, h]

/-- Witness for C8: a rejecting clipboard yields `false` and the
failure toast; a resolving one yields `true`. -/
theorem clipboardFailureHandled_witness :
    copyToClipboard ⟨fun _ => Except.error "NotAllowedError"⟩ "text" = false ∧
    (handleCopy ⟨fun _ => Except.error "NotAllowedError"⟩ "original" defaultAppState).toast
      = some "Copy failed" ∧
    copyToClipboard ⟨fun _ => Except.ok ()⟩ "text" = true :=
  ⟨(clipboardFailureHandled ⟨fun _ => Except.error "NotAllowedError"⟩).2.1 "text"
      "NotAllowedError" rfl,
   (clipboardFailureHandled ⟨fun _ => Except.error "NotAllowedError"⟩).2.2.1 defaultAppState
      "original" "NotAllowedError" rfl,
   (clipboardFailureHandled ⟨fun _ => Except.ok ()⟩).1 "text" () rfl⟩

lemma unmountCleanup_widget (s : AppState) :
    (unmountCleanup s).widget = disposeList s.widget s.disposables := by
  unfold unmountCleanup
  try dsimp only
  split <;> rfl

lemma unmountCleanup_toast (s : AppState) :
    (unmountCleanup s).toast = s.toast := by
  unfold unmountCleanup
  try dsimp only
  split <;> rfl

lemma unmountCleanup_firedCount (s : AppState) :
    (unmountCleanup s).firedCount = s.firedCount := by
  unfold unmountCleanup
  try dsimp only
  split <;> rfl

lemma unmountCleanup_timers (s : AppState) :
    (unmountCleanup s).timers
      = (if s.toastTimer ≠ 0 then s.timers.filter (fun t => t.1 ≠ s.toastTimer)
         else s.timers) := by
  unfold unmountCleanup
  try dsimp only
  split <;> rfl

/-- With no listener subscribed, a content-change event only moves the
widget's own text; no state field changes. -/
lemma fireOrig_nil (v : String) (s : AppState) (h : s.widget.origIds = []) :
    fireOrig v s = { s with widgetOrigText := v } := by
  unfold fireOrig
  dsimp only
  have hids : ({ s with widgetOrigText := v } : AppState).widget.origIds = [] := h
  rw [hids, List.foldl_nil]

lemma fireMod_nil (v : String) (s : AppState) (h : s.widget.modIds = []) :
    fireMod v s = { s with widgetModText := v } := by
  unfold fireMod
  dsimp only
  have hids : ({ s with widgetModText := v } : AppState).widget.modIds = [] := h
  rw [hids, List.foldl_nil]

/-- C9: after teardown of the hosting view, no subscription remains —
a later content-change event changes nothing but the widget text — and
the pending toast timer is gone, so no amount of elapsed time can fire
a stale notification. -/
theorem detachLeavesNothingActive (s : AppState) (hS : SubInv s) (hT : ToastInv s) :
    (unmountCleanup s).widget.origIds = [] ∧
    (unmountCleanup s).widget.modIds = [] ∧
    (∀ v, fireOrig v (unmountCleanup s) = { unmountCleanup s with widgetOrigText := v }) ∧
    (∀ v, fireMod v (unmountCleanup s) = { unmountCleanup s with widgetModText := v }) ∧
    (unmountCleanup s).timers = [] ∧
    (∀ d, (elapse d (unmountCleanup s)).toast = (unmountCleanup s).toast ∧
      (elapse d (unmountCleanup s)).firedCount = (unmountCleanup s).firedCount) := by
  obtain ⟨h1, h2⟩ := hS
  have hw : (unmountCleanup s).widget = ⟨[], []⟩ := by
    rw [unmountCleanup_widget]
    exact disposeList_nil_of_covered s.disposables s.widget h1 h2
  obtain ⟨hall, hlen, hpos⟩ := hT
  have htm : (unmountCleanup s).timers = [] := by
    rw [unmountCleanup_timers]
    by_cases h0 : s.toastTimer = 0
    · rw [if_neg (by simp [h0])]
      rw [List.eq_nil_iff_forall_not_mem]
      intro t ht
      obtain ⟨he, hne⟩ := hall t ht
      exact hne (he.trans h0)
    · rw [if_pos h0]
      rw [List.filter_eq_nil_iff]
      intro t ht
      obtain ⟨he, _⟩ := hall t ht
      simp [he]
  refine ⟨by rw [hw], by rw [hw], ?_, ?_, htm, ?_⟩
  · intro v
    exact fireOrig_nil v _ (by rw [hw])
  · intro v
    exact fireMod_nil v _ (by rw [hw])
  · intro d
    rw [elapse_toast, elapse_firedCount, htm]
    simp

/-- Witness for C9 at a state with one mounted widget and one pending
toast timer. -/
theorem detachLeavesNothingActive_witness :
    (unmountCleanup (showToast "Copied" (handleMount defaultAppState))).widget.origIds = [] ∧
    (unmountCleanup (showToast "Copied" (handleMount defaultAppState))).timers = [] ∧
    (elapse 5000 (unmountCleanup (showToast "Copied" (handleMount defaultAppState)))).toast
      = (unmountCleanup (showToast "Copied" (handleMount defaultAppState))).toast := by
  have hS : SubInv (showToast "Copied" (handleMount defaultAppState)) :=
    ⟨by decide, by decide⟩
  have hT : ToastInv (showToast "Copied" (handleMount defaultAppState)) :=
    ⟨by decide, by decide, by decide⟩
  have h := detachLeavesNothingActive _ hS hT
  exact ⟨h.1, h.2.2.2.2.1, (h.2.2.2.2.2 5000).1⟩
